import Mathlib

/-!
Verification of the `Sweepable` normalization layer
(`cirq/study/sweepable.py`): the polymorphic input type and the three
conversion operations `to_resolvers`, `to_sweeps`, `to_sweep`, together
with the helper `_resolver_to_sweep`.

Embedding choices:
* The Python layer is dynamically typed and dispatches on runtime shape
  (`isinstance` chains).  We model the universe of runtime values that can
  reach these functions as one inductive type `Val`, whose constructors are
  the shapes the source distinguishes: `None`, a `ParamResolver`, a raw
  dict (accepted by `to_sweep` via `ParamResolverOrSimilarType`), the four
  `Sweep` variants referenced by the source (`UnitSweep`, `Points`, `Zip`,
  `ListSweep`), and a generic iterable (a finite list of values).
* Parameter keys are `String`s and bound values are `Int`s; the source
  never inspects either, it only passes them through, so any type with
  decidable equality is a faithful choice.
* A `ParamResolver`'s `param_dict` is an insertion-ordered association
  list, matching Python dict iteration order.
* A Python `TypeError` is `Except.error`; normal return is `Except.ok`.
  The source interpolates the offending value into the message; the
  message text itself carries no semantics, so we keep it constant.
* `to_resolvers` is a generator in the source; we model the full sequence
  it produces (or the error it raises while being consumed).
-/

namespace CirqStudy

/-- The key → value mapping carried by a resolver, in insertion order. -/
abbrev ParamDict := List (String × Int)

/-- A parameter resolver (a `Binding`): an immutable mapping from parameter
keys to bound values, exposed through `param_dict`. -/
structure ParamResolver where
  param_dict : ParamDict
deriving DecidableEq, Repr

/-- The universe of runtime values reaching the normalization layer.
`sweepUnit`, `sweepPoints`, `sweepZip` and `sweepListSweep` are the `Sweep`
variants the source references (`UnitSweep`, `Points(key, values)`,
`Zip(*sweeps)`, `ListSweep(resolver_iter)`); `ListSweep` stores the raw
elements it was given, since `to_sweep` performs no per-element validation
before wrapping. -/
inductive Val where
  | none : Val
  | resolver : ParamResolver → Val
  | rawDict : ParamDict → Val
  | sweepUnit : Val
  | sweepPoints : String → List Int → Val
  | sweepZip : List Val → Val
  | sweepListSweep : List Val → Val
  | iterable : List Val → Val

/-- `isinstance(v, Sweep)`: the four modelled `Sweep` shapes. -/
def Val.isSweep : Val → Bool
  | .sweepUnit | .sweepPoints _ _ | .sweepZip _ | .sweepListSweep _ => true
  | _ => false

/-- `isinstance(v, ParamResolver)`. -/
def Val.isResolver : Val → Bool
  | .resolver _ => true
  | _ => false

/-- `cast(ParamResolver, v)`: unchecked in the source; only ever applied
under a guard that `v` is a resolver, so the default branch is arbitrary. -/
def Val.asResolver : Val → ParamResolver
  | .resolver r => r
  | _ => ⟨[]⟩

/-- Modelled from the spec: positional merge of the binding sequences of
`Zip`'s sub-sweeps ("produces bindings by merging one Binding from each
sub-sweep positionally ... merges keys disjointly").  The `Sweep` object
model lives in `cirq/study/sweeps.py`, which is not part of this excerpt. -/
def zipMergeLists : List (List ParamResolver) → List ParamResolver
  | [] => []
  | [rs] => rs
  | rs :: rest =>
    List.zipWith (fun a b => ⟨a.param_dict ++ b.param_dict⟩) rs
      (zipMergeLists rest)

/-- A `ListSweep` element converted to the binding it stands for, when it is
binding-like (`ParamResolver` or raw dict). -/
def Val.asBinding : Val → Option ParamResolver
  | .resolver r => some r
  | .rawDict d => some ⟨d⟩
  | _ => Option.none

mutual

/-- Modelled from the spec: the finite, order-preserving sequence of
bindings a `Sweep` produces when iterated.  `cirq/study/sweeps.py` is not
part of this excerpt; per the spec, `UnitSweep` "produces exactly one
Binding: the empty binding", `Points(key, values)` "produces one Binding
per value, each binding mapping `key` to that value", `Zip(*sweeps)`
merges one binding from each sub-sweep positionally, and
`ListSweep(bindings)` "produces exactly the given Bindings in given order"
(its constructor, external to this layer, validates and converts
binding-like elements; non-binding-like elements never survive it, so they
contribute nothing here). -/
def sweepRun : Val → List ParamResolver
  | .sweepUnit => [⟨[]⟩]
  | .sweepPoints k vs => vs.map fun v => ⟨[(k, v)]⟩
  | .sweepZip ss => zipMergeLists (sweepRunEach ss)
  | .sweepListSweep es => es.filterMap Val.asBinding
  | _ => []

/-- The binding sequence of each sweep in a list, in order. -/
def sweepRunEach : List Val → List (List ParamResolver)
  | [] => []
  | s :: ss => sweepRun s :: sweepRunEach ss

end

/-- `_resolver_to_sweep(resolver)`: `UnitSweep` for an empty mapping,
otherwise `Zip(*[Points(key, [value]) for key, value in params.items()])`. -/
def _resolver_to_sweep (resolver : ParamResolver) : Val :=
  let params := resolver.param_dict
  if params = [] then .sweepUnit
  else .sweepZip (params.map fun kv => .sweepPoints kv.1 [kv.2])

mutual

/-- `to_resolvers(sweepable)`: the sequence of `ParamResolver`s the
generator yields, or the `TypeError` it raises.  The source checks, in
order: `None`, `ParamResolver`, `Sweep`, `Iterable`, else `TypeError`.
A raw dict is not in the declared `Sweepable` union; in the source it
would fall into the `Iterable` branch and iterate its keys (strings),
whose recursive normalization never terminates when the dict is
non-empty; an empty dict yields nothing. -/
def to_resolvers : Val → Except String (List ParamResolver)
  | .none => .ok [⟨[]⟩]
  | .resolver r => .ok [r]
  | .sweepUnit => .ok (sweepRun .sweepUnit)
  | .sweepPoints k vs => .ok (sweepRun (.sweepPoints k vs))
  | .sweepZip ss => .ok (sweepRun (.sweepZip ss))
  | .sweepListSweep es => .ok (sweepRun (.sweepListSweep es))
  | .iterable subs => to_resolvers_list subs
  | .rawDict d =>
    if d = [] then .ok [] else .error "non-terminating recursion"

/-- The `Iterable` branch of `to_resolvers`: `yield from` each element's
normalization, left to right. -/
def to_resolvers_list : List Val → Except String (List ParamResolver)
  | [] => .ok []
  | x :: xs => do
    let rs ← to_resolvers x
    let rest ← to_resolvers_list xs
    return rs ++ rest

end

/-- `to_sweeps(sweepable)`: checks, in order, `None`, `ParamResolver`,
`Sweep`, then `Iterable` (materialized eagerly; returned as-is when every
element is a `Sweep`, else elementwise `_resolver_to_sweep` when every
element is a `ParamResolver`), else raises `TypeError`.  A raw dict would
iterate its keys (strings), which are neither sweeps nor resolvers, so a
non-empty dict raises while an empty one passes the vacuous `all`. -/
def to_sweeps : Val → Except String (List Val)
  | .none => .ok [.sweepUnit]
  | .resolver r => .ok [_resolver_to_sweep r]
  | .sweepUnit => .ok [.sweepUnit]
  | .sweepPoints k vs => .ok [.sweepPoints k vs]
  | .sweepZip ss => .ok [.sweepZip ss]
  | .sweepListSweep es => .ok [.sweepListSweep es]
  | .iterable items =>
    if items.all Val.isSweep then .ok items
    else if items.all Val.isResolver then
      .ok (items.map fun p => _resolver_to_sweep p.asResolver)
    else .error "Unexpected Sweepable"
  | .rawDict d =>
    if d = [] then .ok [] else .error "Unexpected Sweepable"

/-- `to_sweep(sweep_or_resolver_list)`: a `Sweep` is returned unchanged; a
`ParamResolver` or raw dict is wrapped as `ListSweep([resolver])`; any
other iterable is wrapped as `ListSweep(resolver_iter)` with no
per-element validation; anything else (here only `None`) raises
`TypeError`. -/
def to_sweep : Val → Except String Val
  | .sweepUnit => .ok .sweepUnit
  | .sweepPoints k vs => .ok (.sweepPoints k vs)
  | .sweepZip ss => .ok (.sweepZip ss)
  | .sweepListSweep es => .ok (.sweepListSweep es)
  | .resolver r => .ok (.sweepListSweep [.resolver r])
  | .rawDict d => .ok (.sweepListSweep [.rawDict d])
  | .iterable xs => .ok (.sweepListSweep xs)
  | .none => .error "Unexpected sweep-like value"

/-! ### Helper lemmas -/

lemma to_resolvers_iterable (l : List Val) :
    to_resolvers (.iterable l) = to_resolvers_list l := rfl

lemma to_resolvers_list_cons (x : Val) (xs : List Val) :
    to_resolvers_list (x :: xs) = do
      let rs ← to_resolvers x
      let rest ← to_resolvers_list xs
      return rs ++ rest := rfl

lemma sweepRunEach_map_points (ps : ParamDict) :
    sweepRunEach (ps.map fun kv => Val.sweepPoints kv.1 [kv.2]) =
      ps.map fun kv => [(⟨[kv]⟩ : ParamResolver)] := by
  induction ps with
  | nil => rfl
  | cons a t ih => simp [sweepRunEach, sweepRun, ih]

lemma zipMergeLists_singletons (ps : ParamDict) (h : ps ≠ []) :
    zipMergeLists (ps.map fun kv => [(⟨[kv]⟩ : ParamResolver)]) = [⟨ps⟩] := by
  induction ps with
  | nil => exact absurd rfl h
  | cons a t ih =>
    cases t with
    | nil => rfl
    | cons b t' =>
      have h2 := ih (by simp)
      simp only [List.map_cons] at h2 ⊢
      rw [zipMergeLists, h2]
      · rfl
      · simp

/-! ### The claims -/

/-- Claim C1, counterexample: contrary to the claim that `to_sweeps` raises
a TypeKind error on the empty iterable, the code returns the empty list:
the `all(isinstance(item, Sweep) ...)` homogeneity check is vacuously true
for an empty collection, so the empty list of items is returned as-is. -/
theorem to_sweeps_empty_returns_empty_list :
    to_sweeps (.iterable []) = .ok [] := rfl

/-- Claim C1, amended: for the empty iterable input, `to_sweeps` does not
raise; the empty collection is accepted as "all Sweeps" by the vacuous
homogeneity check and `to_sweeps([])` returns the empty list `[]`. -/
theorem to_sweeps_empty_no_error :
    to_sweeps (.iterable []) = .ok [] ∧
    ∀ e, to_sweeps (.iterable []) ≠ .error e :=
  ⟨rfl, fun _ h => Except.noConfusion h⟩

/-- Claim C2: for the input `None`, `to_resolvers` yields exactly one empty
binding (a resolver with an empty mapping) and `to_sweeps` returns the
one-element list `[UnitSweep]`. -/
theorem none_normalization :
    to_resolvers Val.none = .ok [⟨[]⟩] ∧
    to_sweeps Val.none = .ok [.sweepUnit] :=
  ⟨rfl, rfl⟩

/-- Claim C3: for every iterable Sweepable, the sequence produced by
`to_resolvers` is the concatenation, in element order, of `to_resolvers`
applied recursively to each element (depth-first, left-to-right
flattening); an error while normalizing an element propagates. -/
theorem to_resolvers_flattening (l : List Val) :
    to_resolvers (.iterable l) =
      Except.map List.flatten (l.mapM to_resolvers) := by
  induction l with
  | nil => rfl
  | cons x xs ih =>
    rw [to_resolvers_iterable, to_resolvers_list_cons, List.mapM_cons]
    rw [to_resolvers_iterable] at ih
    cases hx : to_resolvers x with
    | error e => simp [hx, Except.map, bind, Except.bind]
    | ok rs =>
      cases hxs : xs.mapM to_resolvers with
      | error e =>
        rw [ih, hxs]
        simp [hx, Except.map, bind, Except.bind]
      | ok rss =>
        rw [ih, hxs]
        simp [hx, Except.map, bind, Except.bind, pure, Except.pure]

/-- Claim C4: `_resolver_to_sweep` returns `UnitSweep` on an empty mapping
and otherwise a `Zip` of one single-point `Points(key, [value])` sweep per
key/value pair, in the mapping's own insertion order; in both cases the
resulting sweep produces exactly the one input binding (round-trip law). -/
theorem resolver_to_sweep_roundtrip (r : ParamResolver) :
    (r.param_dict = [] → _resolver_to_sweep r = .sweepUnit) ∧
    (r.param_dict ≠ [] → _resolver_to_sweep r =
      .sweepZip (r.param_dict.map fun kv => .sweepPoints kv.1 [kv.2])) ∧
    sweepRun (_resolver_to_sweep r) = [r] := by
  obtain ⟨ps⟩ := r
  refine ⟨fun h => by simp [_resolver_to_sweep, show ps = [] from h],
          fun h => by simp [_resolver_to_sweep, show ps ≠ [] from h], ?_⟩
  by_cases h : ps = []
  · subst h; rfl
  · show sweepRun (_resolver_to_sweep ⟨ps⟩) = [⟨ps⟩]
    simp only [_resolver_to_sweep, h, if_false]
    rw [sweepRun, sweepRunEach_map_points, zipMergeLists_singletons ps h]

/-- Claim C4, witness: on the one-pair binding `{a: 1}` the helper builds
`Zip(Points("a", [1]))` and running that sweep gives back the binding. -/
theorem resolver_to_sweep_roundtrip_witness :
    _resolver_to_sweep ⟨[("a", 1)]⟩ = .sweepZip [.sweepPoints "a" [1]] ∧
    sweepRun (_resolver_to_sweep ⟨[("a", 1)]⟩) = [⟨[("a", 1)]⟩] :=
  ⟨(resolver_to_sweep_roundtrip ⟨[("a", 1)]⟩).2.1 (by simp),
   (resolver_to_sweep_roundtrip ⟨[("a", 1)]⟩).2.2⟩

/-- Claim C5: a `Sweep` given as the whole input passes through all three
operations: `to_resolvers` yields exactly the bindings from iterating the
sweep in its own order, `to_sweeps` returns the one-element list holding
it, and `to_sweep` returns it unchanged. -/
theorem sweep_passthrough (s : Val) (h : s.isSweep = true) :
    to_resolvers s = .ok (sweepRun s) ∧
    to_sweeps s = .ok [s] ∧
    to_sweep s = .ok s := by
  cases s <;> simp [Val.isSweep] at h <;> exact ⟨rfl, rfl, rfl⟩

/-- Claim C5, witness: the pass-through at the sweep `Points("a", [1, 2])`. -/
theorem sweep_passthrough_witness :
    to_resolvers (.sweepPoints "a" [1, 2]) =
      .ok (sweepRun (.sweepPoints "a" [1, 2])) ∧
    to_sweeps (.sweepPoints "a" [1, 2]) = .ok [.sweepPoints "a" [1, 2]] ∧
    to_sweep (.sweepPoints "a" [1, 2]) = .ok (.sweepPoints "a" [1, 2]) :=
  sweep_passthrough (.sweepPoints "a" [1, 2]) rfl

/-- Claim C6: on a non-empty collection `to_sweeps` checks homogeneity of
the whole collection: all-Sweep elements are returned as-is in order,
all-Binding elements are mapped elementwise through `_resolver_to_sweep`
in order with no recursion into nested sub-iterables, and any other mix
(including unsupported element types) raises a TypeKind error. -/
theorem to_sweeps_homogeneity (items : List Val) (hne : items ≠ []) :
    (items.all Val.isSweep = true → to_sweeps (.iterable items) = .ok items) ∧
    (items.all Val.isResolver = true → to_sweeps (.iterable items) =
      .ok (items.map fun p => _resolver_to_sweep p.asResolver)) ∧
    (items.all Val.isSweep = false → items.all Val.isResolver = false →
      to_sweeps (.iterable items) = .error "Unexpected Sweepable") := by
  refine ⟨fun hs => by simp [to_sweeps, hs], fun hr => ?_, fun hs hr => by simp [to_sweeps, hs, hr]⟩
  have hs : items.all Val.isSweep = false := by
    cases items with
    | nil => exact absurd rfl hne
    | cons x xs =>
      have hx : x.isResolver = true := by
        simp only [List.all_cons, Bool.and_eq_true] at hr
        exact hr.1
      cases x <;> simp [Val.isResolver] at hx
      simp [List.all_cons, Val.isSweep]
  simp [to_sweeps, hs, hr]

/-- Claim C6, witness: a singleton all-Binding collection maps through
`_resolver_to_sweep`, and a mixed Binding/Sweep pair raises. -/
theorem to_sweeps_homogeneity_witness :
    to_sweeps (.iterable [.resolver ⟨[("a", 1)]⟩]) =
      .ok [_resolver_to_sweep ⟨[("a", 1)]⟩] ∧
    to_sweeps (.iterable [.resolver ⟨[]⟩, .sweepUnit]) =
      .error "Unexpected Sweepable" :=
  ⟨(to_sweeps_homogeneity [.resolver ⟨[("a", 1)]⟩] (by simp)).2.1 rfl,
   (to_sweeps_homogeneity [.resolver ⟨[]⟩, .sweepUnit] (by simp)).2.2 rfl rfl⟩

/-- Claim C7: `to_sweep` wraps a single binding-like input (a resolver or
an equivalent raw mapping) as the one-element sweep `ListSweep([value])`,
and wraps any other iterable as `ListSweep(iterable)` preserving element
order, with no per-element validation and no flattening — an iterable that
happens to contain a Sweep is wrapped as-is, not merged. -/
theorem to_sweep_wraps (r : ParamResolver) (d : ParamDict) (xs : List Val) :
    to_sweep (.resolver r) = .ok (.sweepListSweep [.resolver r]) ∧
    to_sweep (.rawDict d) = .ok (.sweepListSweep [.rawDict d]) ∧
    to_sweep (.iterable xs) = .ok (.sweepListSweep xs) :=
  ⟨rfl, rfl, rfl⟩

/-- Claim C8: a single binding given as the whole input: `to_resolvers`
yields exactly that binding, and `to_sweeps` returns exactly the
one-element list `[_resolver_to_sweep(b)]`. -/
theorem single_binding_normalization (r : ParamResolver) :
    to_resolvers (.resolver r) = .ok [r] ∧
    to_sweeps (.resolver r) = .ok [_resolver_to_sweep r] :=
  ⟨rfl, rfl⟩

/-- Claim C9: `to_sweep` applied to an empty iterable does not raise; the
empty case falls into the generic iterable branch, which wraps it as
`ListSweep` of the empty sequence. -/
theorem to_sweep_empty_iterable :
    to_sweep (.iterable []) = .ok (.sweepListSweep []) ∧
    ∀ e, to_sweep (.iterable []) ≠ .error e :=
  ⟨rfl, fun _ h => Except.noConfusion h⟩

/-- Claim C10: `None` is a valid element inside a collection passed to
`to_resolvers`: a `None` element contributes exactly one empty binding at
its position (the iterable branch re-enters `to_resolvers`, whose `None`
case yields an empty resolver); in particular `to_resolvers([None, None])`
yields exactly two empty bindings. -/
theorem none_inside_collection (l : List Val) :
    to_resolvers (.iterable (Val.none :: l)) =
      Except.map (fun rest => ⟨[]⟩ :: rest) (to_resolvers (.iterable l)) ∧
    to_resolvers (.iterable [Val.none, Val.none]) = .ok [⟨[]⟩, ⟨[]⟩] := by
  refine ⟨?_, rfl⟩
  rw [to_resolvers_iterable, to_resolvers_list_cons]
  cases h : to_resolvers_list l <;>
    simp [to_resolvers, h, Except.map, bind, Except.bind, pure, Except.pure]

end CirqStudy
